import Mathlib

/-!
Verification of the WebSocket connection-pool core of the
usageflow-go-middleware repository (package `socket`).

The Go source is shallowly embedded: each Go function that the claims
mention is translated into an executable Lean definition over explicit
state records.  Go `map[string]chan ...` handler tables are modelled by
the finite set of their keys (each key identifies the single waiter
channel registered under it), Go `int` counters by `Int`, and the
nondeterministic environment (dial results, write failures, message
arrival) by explicit parameters.
-/

namespace UsageFlow

/-! ### Constants (socket manager `const` block) -/

/-- `defaultPoolSize = 10`. -/
def defaultPoolSize : Int := 10

/-- `reconnectDelay = 5 * time.Second`, in seconds. -/
def reconnectDelaySec : Nat := 5

/-- `maxReconnectTries = 5`. -/
def maxReconnectTries : Nat := 5

/-- `defaultWSURL`. -/
def defaultWSURL : String := "wss://api.usageflow.io/ws"

/-! ### Message types (pkg/socket/types.go) -/

/-- `UsageFlowSocketMessage`: outbound frame. The payload is opaque to the
core, modelled as a `String`. -/
structure UsageFlowSocketMessage where
  type : String
  payload : String
  id : String
deriving DecidableEq, Repr

/-- `UsageFlowSocketResponse`: inbound frame with correlation fields
`id`/`replyTo` and the remote-reported `error` text. -/
structure UsageFlowSocketResponse where
  type : String
  payload : String
  id : String
  replyTo : String
  message : String
  error : String
deriving DecidableEq, Repr

/-! ### Connection and manager state -/

/-- `PooledConnection`: one pooled WebSocket connection.  The `ws` handle
is modelled by two booleans: `wsNil` (the Go `ws == nil` test) and
`wsClosed` (whether `ws.Close()` has been called).  `messageHandlers` is
the key set of the Go `map[string]chan *UsageFlowSocketResponse`. -/
structure PooledConnection where
  connected : Bool
  pendingRequests : Int
  index : Nat
  wsNil : Bool
  wsClosed : Bool
  messageHandlers : Finset String
deriving DecidableEq

/-- `UsageFlowSocketManager`: the pool manager. -/
structure UsageFlowSocketManager where
  connections : List PooledConnection
  wsURL : String
  poolSize : Int
  currentIndex : Nat
  connecting : Bool
  apiKey : String
deriving DecidableEq

/-! ### Connection-level primitives used by `asyncSend` and the read loop -/

/-- The registration step of `asyncSend`:
`conn.pendingRequests++; conn.messageHandlers[id] = responseChan`. -/
def registerWaiter (conn : PooledConnection) (id : String) : PooledConnection :=
  { conn with
      pendingRequests := conn.pendingRequests + 1
      messageHandlers := insert id conn.messageHandlers }

/-- The `cleanup` closure of `asyncSend`:
`conn.pendingRequests--; delete(conn.messageHandlers, id)`. -/
def cleanupWaiter (conn : PooledConnection) (id : String) : PooledConnection :=
  { conn with
      pendingRequests := conn.pendingRequests - 1
      messageHandlers := conn.messageHandlers.erase id }

/-- The read loop's `delete(conn.messageHandlers, handlerID)` performed on
a matched handler before the response is pushed into the waiter channel
(`handleMessages`). -/
def removeHandler (conn : PooledConnection) (id : String) : PooledConnection :=
  { conn with messageHandlers := conn.messageHandlers.erase id }

/-- The `defer` block of `handleMessages` (also the clearing step of
`reconnectConnectionWithRetry`): mark the connection dead and delete every
entry of the handler table, under one critical section. -/
def clearHandlers (conn : PooledConnection) : PooledConnection :=
  { conn with connected := false, messageHandlers := ∅ }

/-- The failure branch of `pingConnection`: a failed ping write only sets
`conn.connected = false`; the handler table is not touched there. -/
def markDisconnected (conn : PooledConnection) : PooledConnection :=
  { conn with connected := false }

/-! ### getConnection (least-busy selection with round-robin) -/

/-- One step of the least-busy loop of `getConnection`:
`if conn.pendingRequests < selected.pendingRequests { selected = conn }`. -/
def leastBusyStep (sel conn : PooledConnection) : PooledConnection :=
  if conn.pendingRequests < sel.pendingRequests then conn else sel

/-- `getConnection`: returns the selected connection (if any) together
with the possibly-updated manager (the round-robin cursor is the only
manager field it writes).  Mirrors the Go code: empty-pool check, filter
to connected connections, least-busy fold over the connected slice
starting from its first element, same-load check, round-robin branch. -/
def getConnection (m : UsageFlowSocketManager) :
    Option PooledConnection × UsageFlowSocketManager :=
  if m.connections.isEmpty then (none, m)
  else
    match m.connections.filter (fun c => c.connected) with
    | [] => (none, m)
    | c0 :: rest =>
      if ((c0 :: rest).all fun conn =>
            conn.pendingRequests ==
              ((c0 :: rest).foldl leastBusyStep c0).pendingRequests) = true
          ∧ 1 < (c0 :: rest).length then
        (some ((c0 :: rest).getD
            ((m.currentIndex + 1) % (c0 :: rest).length) c0),
          { m with currentIndex := (m.currentIndex + 1) % (c0 :: rest).length })
      else
        (some ((c0 :: rest).foldl leastBusyStep c0), m)

/-- `IsConnected`: true iff some pooled connection is connected. -/
def IsConnected (m : UsageFlowSocketManager) : Bool :=
  m.connections.any (fun c => c.connected)

/-! ### asyncSend / SendAsync / Send -/

/-- Errors returned by the send path.  The Go code returns distinct error
values: "WebSocket not connected", "failed to generate ID",
"failed to marshal message", "failed to send message",
"WebSocket request timeout". -/
inductive SendError where
  | notConnected
  | idGenFailed
  | marshalFailed
  | writeFailed
  | requestTimeout
deriving DecidableEq, Repr

/-- Environment outcome of one `asyncSend` call after the waiter has been
registered: the frame write fails, or the read loop delivers a response
into the waiter channel, or the `requestTimeout` timer fires first. -/
inductive SendOutcome where
  | delivered (r : UsageFlowSocketResponse)
  | writeError
  | timeout
deriving DecidableEq, Repr

/-- `asyncSend`: registers a waiter under the freshly generated `id`,
increments `pendingRequests`, writes the frame and waits.  The `cleanup`
closure (decrement + deregister) runs exactly once on every exit path.
In the `delivered` branch the read loop has already removed the matched
handler entry (`handleMessages` deletes it before filling the channel),
so that removal is applied before `cleanup`.  ID-generation and
marshalling failures in the Go code return before any registration,
leaving the connection state untouched; they are not environment
outcomes of the registered phase and are omitted here. -/
def asyncSend (conn : PooledConnection) (id : String) (outcome : SendOutcome) :
    Except SendError UsageFlowSocketResponse × PooledConnection :=
  if conn.connected = false ∨ conn.wsNil = true then
    (Except.error SendError.notConnected, conn)
  else
    let registered := registerWaiter conn id
    match outcome with
    | SendOutcome.writeError =>
        (Except.error SendError.writeFailed, cleanupWaiter registered id)
    | SendOutcome.timeout =>
        (Except.error SendError.requestTimeout, cleanupWaiter registered id)
    | SendOutcome.delivered r =>
        (Except.ok r, cleanupWaiter (removeHandler registered id) id)

/-- Replace the (first) occurrence of connection `a` by `b` in the pool:
the functional rendering of `asyncSend` mutating the selected connection
through its pointer. -/
def replaceConn (l : List PooledConnection) (a b : PooledConnection) :
    List PooledConnection :=
  match l with
  | [] => []
  | x :: xs => if x = a then b :: xs else x :: replaceConn xs a b

/-- `SendAsync`: select a connection via `getConnection`; fail with the
"WebSocket not connected" error if none; otherwise run `asyncSend` on the
selected connection. -/
def SendAsync (m : UsageFlowSocketManager) (id : String) (outcome : SendOutcome) :
    Except SendError UsageFlowSocketResponse × UsageFlowSocketManager :=
  match getConnection m with
  | (none, m1) => (Except.error SendError.notConnected, m1)
  | (some conn, m1) =>
      let r := asyncSend conn id outcome
      (r.1, { m1 with connections := replaceConn m1.connections conn r.2 })

/-- `Send` (fire-and-forget), at the connection level: re-checks liveness
under the lock, then writes the frame; no waiter is registered and the
write error (if any) is returned as is. -/
def sendOnConnection (conn : PooledConnection) (writeOK : Bool) :
    Except SendError Unit :=
  if conn.connected = false ∨ conn.wsNil = true then
    Except.error SendError.notConnected
  else if writeOK then Except.ok ()
  else Except.error SendError.writeFailed

/-! ### Lemmas about the least-busy fold and getConnection -/

theorem foldl_leastBusy_mem (l : List PooledConnection) (a : PooledConnection) :
    l.foldl leastBusyStep a = a ∨ l.foldl leastBusyStep a ∈ l := by
  induction l generalizing a with
  | nil => exact Or.inl rfl
  | cons y ys ih =>
    simp only [List.foldl_cons]
    rcases ih (leastBusyStep a y) with h | h
    · rw [h]
      unfold leastBusyStep
      split
      · exact Or.inr (List.mem_cons_self _ _)
      · exact Or.inl rfl
    · exact Or.inr (List.mem_cons_of_mem _ h)

theorem foldl_leastBusy_le (l : List PooledConnection) (a : PooledConnection) :
    (l.foldl leastBusyStep a).pendingRequests ≤ a.pendingRequests ∧
    ∀ c ∈ l, (l.foldl leastBusyStep a).pendingRequests ≤ c.pendingRequests := by
  induction l generalizing a with
  | nil => exact ⟨le_refl _, by simp⟩
  | cons y ys ih =>
    simp only [List.foldl_cons]
    obtain ⟨h1, h2⟩ := ih (leastBusyStep a y)
    have hstep : (leastBusyStep a y).pendingRequests ≤ a.pendingRequests ∧
        (leastBusyStep a y).pendingRequests ≤ y.pendingRequests := by
      unfold leastBusyStep; split <;> omega
    refine ⟨le_trans h1 hstep.1, ?_⟩
    intro c hc
    rcases List.mem_cons.mp hc with rfl | hc
    · exact le_trans h1 hstep.2
    · exact h2 c hc

/-- `getConnection` yields no connection exactly when no pooled
connection is connected. -/
theorem getConnection_none_iff (m : UsageFlowSocketManager) :
    (getConnection m).1 = none ↔ ∀ c ∈ m.connections, c.connected = false := by
  unfold getConnection
  split
  · next hEmpty =>
    rw [List.isEmpty_iff] at hEmpty
    simp [hEmpty]
  · next hEmpty =>
    split
    · next hFilter =>
      rw [List.filter_eq_nil_iff] at hFilter
      constructor
      · intro _ c hc
        have := hFilter c hc
        simpa using this
      · intro _; rfl
    · next c0 rest hFilter =>
      constructor
      · intro h
        exfalso
        revert h
        split <;> simp
      · intro hAll
        exfalso
        have hc0 : c0 ∈ m.connections.filter (fun c => c.connected) := by
          rw [hFilter]; exact List.mem_cons_self _ _
        have hmem := List.mem_filter.mp hc0
        have := hAll c0 hmem.1
        rw [this] at hmem
        simpa using hmem.2

/-- Any connection returned by `getConnection` is a pooled, connected
connection of minimal pending load among the connected ones. -/
theorem getConnection_some_spec (m : UsageFlowSocketManager)
    (c : PooledConnection) (h : (getConnection m).1 = some c) :
    c ∈ m.connections ∧ c.connected = true ∧
      ∀ c' ∈ m.connections, c'.connected = true →
        c.pendingRequests ≤ c'.pendingRequests := by
  have hmemCl : ∀ x, x ∈ m.connections.filter (fun cc => cc.connected) →
      x ∈ m.connections ∧ x.connected = true := by
    intro x hx
    have := List.mem_filter.mp hx
    exact ⟨this.1, by simpa using this.2⟩
  revert h
  unfold getConnection
  split
  · simp
  · next hEmpty =>
    split
    · simp
    · next c0 rest hFilter =>
      have hselMem : (c0 :: rest).foldl leastBusyStep c0 ∈ c0 :: rest := by
        rcases foldl_leastBusy_mem (c0 :: rest) c0 with he | hm
        · rw [he]; exact List.mem_cons_self _ _
        · exact hm
      have hselMin : ∀ x ∈ c0 :: rest,
          ((c0 :: rest).foldl leastBusyStep c0).pendingRequests ≤
            x.pendingRequests :=
        (foldl_leastBusy_le (c0 :: rest) c0).2
      split
      · next hcond =>
        intro h
        rw [Option.some_inj] at h
        have hlt : (m.currentIndex + 1) % (c0 :: rest).length <
            (c0 :: rest).length :=
          Nat.mod_lt _ (Nat.succ_pos _)
        have hc : c ∈ c0 :: rest := by
          rw [← h]
          rw [List.getD_eq_getElem?_getD, List.getElem?_eq_getElem hlt]
          exact List.getElem_mem hlt
        have hcc := hmemCl c (hFilter ▸ hc)
        refine ⟨hcc.1, hcc.2, ?_⟩
        intro c' hc' hc'conn
        have hc'cl : c' ∈ c0 :: rest := by
          rw [← hFilter]
          exact List.mem_filter.mpr ⟨hc', by simp [hc'conn]⟩
        have hload : c.pendingRequests =
            ((c0 :: rest).foldl leastBusyStep c0).pendingRequests := by
          have := List.all_eq_true.mp hcond.1 c hc
          simpa using this
        rw [hload]
        exact hselMin c' hc'cl
      · intro h
        rw [Option.some_inj] at h
        have hc : c ∈ c0 :: rest := h ▸ hselMem
        have hcc := hmemCl c (hFilter ▸ hc)
        refine ⟨hcc.1, hcc.2, ?_⟩
        intro c' hc' hc'conn
        have hc'cl : c' ∈ c0 :: rest := by
          rw [← hFilter]
          exact List.mem_filter.mpr ⟨hc', by simp [hc'conn]⟩
        rw [← h]
        exact hselMin c' hc'cl

/-- When every connected connection carries the same pending load and
there are at least two of them, `getConnection` takes the round-robin
branch: it advances the cursor and returns the connection at the new
cursor position of the connected slice. -/
theorem getConnection_allEqual_eq (m : UsageFlowSocketManager) (p : Int)
    (c0 : PooledConnection) (rest : List PooledConnection)
    (hFilter : m.connections.filter (fun c => c.connected) = c0 :: rest)
    (hlen : 1 < (c0 :: rest).length)
    (heq : ∀ c ∈ c0 :: rest, c.pendingRequests = p) :
    getConnection m =
      (some ((c0 :: rest).getD
          ((m.currentIndex + 1) % (c0 :: rest).length) c0),
        { m with currentIndex :=
            (m.currentIndex + 1) % (c0 :: rest).length }) := by
  have hne : ¬(m.connections.isEmpty = true) := by
    rw [List.isEmpty_iff]
    intro h
    rw [h] at hFilter
    simp at hFilter
  have hsel : ((c0 :: rest).foldl leastBusyStep c0).pendingRequests = p := by
    have hm : (c0 :: rest).foldl leastBusyStep c0 ∈ c0 :: rest := by
      rcases foldl_leastBusy_mem (c0 :: rest) c0 with he | hm
      · rw [he]; exact List.mem_cons_self _ _
      · exact hm
    exact heq _ hm
  have hall : ((c0 :: rest).all fun conn =>
      conn.pendingRequests ==
        ((c0 :: rest).foldl leastBusyStep c0).pendingRequests) = true := by
    rw [List.all_eq_true]
    intro c hc
    have hcp : c.pendingRequests =
        ((c0 :: rest).foldl leastBusyStep c0).pendingRequests := by
      rw [heq c hc, hsel]
    exact beq_iff_eq.mpr hcp
  unfold getConnection
  rw [if_neg hne, hFilter]
  exact if_pos ⟨hall, hlen⟩

/-- With all-equal loads, more than one connected connection, and
pairwise-distinct connection indices, two consecutive `getConnection`
calls return different connections. -/
theorem getConnection_consecutive_distinct (m : UsageFlowSocketManager)
    (p : Int)
    (hlen : 1 < (m.connections.filter fun c => c.connected).length)
    (heq : ∀ c ∈ m.connections.filter (fun c => c.connected),
      c.pendingRequests = p)
    (hnd : ((m.connections.filter fun c => c.connected).map
      fun c => c.index).Nodup) :
    ∃ c1 c2, (getConnection m).1 = some c1 ∧
      (getConnection (getConnection m).2).1 = some c2 ∧ c1 ≠ c2 := by
  obtain ⟨c0, rest, hFilter⟩ :
      ∃ c0 rest, m.connections.filter (fun c => c.connected) = c0 :: rest := by
    cases hcl : m.connections.filter (fun c => c.connected) with
    | nil => rw [hcl] at hlen; simp at hlen
    | cons a b => exact ⟨a, b, rfl⟩
  rw [hFilter] at hlen heq hnd
  have h1 := getConnection_allEqual_eq m p c0 rest hFilter hlen heq
  have hm'conns :
      ({ m with currentIndex :=
          (m.currentIndex + 1) % (c0 :: rest).length } :
        UsageFlowSocketManager).connections = m.connections := rfl
  have h2 := getConnection_allEqual_eq
    ({ m with currentIndex := (m.currentIndex + 1) % (c0 :: rest).length })
    p c0 rest hFilter hlen heq
  have hnpos : 0 < (c0 :: rest).length := Nat.succ_pos _
  have hj1lt : (m.currentIndex + 1) % (c0 :: rest).length <
      (c0 :: rest).length := Nat.mod_lt _ hnpos
  have hj2lt : ((m.currentIndex + 1) % (c0 :: rest).length + 1)
      % (c0 :: rest).length < (c0 :: rest).length := Nat.mod_lt _ hnpos
  have hne12 : (m.currentIndex + 1) % (c0 :: rest).length ≠
      ((m.currentIndex + 1) % (c0 :: rest).length + 1)
        % (c0 :: rest).length := by
    rcases Nat.lt_or_ge ((m.currentIndex + 1) % (c0 :: rest).length + 1)
        ((c0 :: rest).length) with hlt | hge
    · rw [Nat.mod_eq_of_lt hlt]; omega
    · have hj1n : (m.currentIndex + 1) % (c0 :: rest).length + 1 =
          (c0 :: rest).length := by omega
      rw [hj1n, Nat.mod_self]
      omega
  refine ⟨(c0 :: rest).getD ((m.currentIndex + 1) % (c0 :: rest).length) c0,
    (c0 :: rest).getD (((m.currentIndex + 1) % (c0 :: rest).length + 1)
      % (c0 :: rest).length) c0, ?_, ?_, ?_⟩
  · rw [h1]
  · rw [h1, h2]
  · intro hcc
    rw [List.getD_eq_getElem?_getD, List.getElem?_eq_getElem hj1lt,
      List.getD_eq_getElem?_getD, List.getElem?_eq_getElem hj2lt] at hcc
    simp only [Option.getD_some] at hcc
    have hmapLen1 : (m.currentIndex + 1) % (c0 :: rest).length <
        ((c0 :: rest).map fun c => c.index).length := by
      rw [List.length_map]; exact hj1lt
    have hmapLen2 : ((m.currentIndex + 1) % (c0 :: rest).length + 1)
        % (c0 :: rest).length <
        ((c0 :: rest).map fun c => c.index).length := by
      rw [List.length_map]; exact hj2lt
    have hidx : ((c0 :: rest).map fun c => c.index).get
        ⟨(m.currentIndex + 1) % (c0 :: rest).length, hmapLen1⟩ =
        ((c0 :: rest).map fun c => c.index).get
        ⟨((m.currentIndex + 1) % (c0 :: rest).length + 1)
          % (c0 :: rest).length, hmapLen2⟩ := by
      rw [List.get_eq_getElem, List.get_eq_getElem, List.getElem_map,
        List.getElem_map, hcc]
    have hfin := hnd.get_inj_iff.mp hidx
    exact hne12 (by simpa using hfin)

/-- C2, amended: `getConnection` returns a connected connection of
minimal pending load among the connected ones, and returns none exactly
when no connection is connected; the round-robin cursor advances only
when ALL connected connections carry the same load and there is more
than one (then two consecutive selections return different connections);
a tie among a proper subset of the connected connections is broken by
list order — the first connection of minimal load — with no cursor
movement. -/
theorem c2_getConnection_selection (m : UsageFlowSocketManager) (p : Int) :
    ((getConnection m).1 = none ↔
      ∀ c ∈ m.connections, c.connected = false) ∧
    (∀ c, (getConnection m).1 = some c →
      c ∈ m.connections ∧ c.connected = true ∧
      ∀ c' ∈ m.connections, c'.connected = true →
        c.pendingRequests ≤ c'.pendingRequests) ∧
    (1 < (m.connections.filter fun c => c.connected).length →
     (∀ c ∈ m.connections.filter (fun c => c.connected),
       c.pendingRequests = p) →
     ((m.connections.filter fun c => c.connected).map
       fun c => c.index).Nodup →
     ∃ c1 c2, (getConnection m).1 = some c1 ∧
       (getConnection (getConnection m).2).1 = some c2 ∧ c1 ≠ c2) :=
  ⟨getConnection_none_iff m,
   fun c h => getConnection_some_spec m c h,
   fun h1 h2 h3 => getConnection_consecutive_distinct m p h1 h2 h3⟩

/-- A pool whose pending loads are `[3, 1, 1]` (all connected, distinct
indices, cursor 0). -/
def cEx3 : PooledConnection :=
  ⟨true, 3, 0, false, false, ∅⟩

def cEx1a : PooledConnection :=
  ⟨true, 1, 1, false, false, ∅⟩

def cEx1b : PooledConnection :=
  ⟨true, 1, 2, false, false, ∅⟩

def mEx : UsageFlowSocketManager :=
  ⟨[cEx3, cEx1a, cEx1b], defaultWSURL, 10, 0, false, "key"⟩

/-- C2 counterexample: with pending loads `[3, 1, 1]` the two load-1
connections tie, yet two consecutive `getConnection` calls both return
the first of them and leave the manager (cursor included) unchanged —
the round-robin cursor is NOT advanced among a tied proper subset, so
consecutive selections do not rotate through the tied set. -/
theorem c2_counterexample :
    cEx1a.pendingRequests = 1 ∧ cEx1b.pendingRequests = 1 ∧
    cEx3.pendingRequests = 3 ∧ cEx1a ≠ cEx1b ∧
    cEx1b ∈ mEx.connections ∧ cEx1b.connected = true ∧
    getConnection mEx = (some cEx1a, mEx) ∧
    getConnection (getConnection mEx).2 = (some cEx1a, mEx) := by
  decide

/-- A two-connection pool with equal loads, used to witness C2. -/
def cW0 : PooledConnection :=
  ⟨true, 0, 0, false, false, ∅⟩

def cW1 : PooledConnection :=
  ⟨true, 0, 1, false, false, ∅⟩

def mW : UsageFlowSocketManager :=
  ⟨[cW0, cW1], defaultWSURL, 10, 0, false, "key"⟩

theorem c2_witness :
    ((getConnection mW).1 = some cW1 ∧ cW1.connected = true ∧
      cW1 ∈ mW.connections) ∧
    (getConnection (getConnection mW).2).1 = some cW0 ∧ cW1 ≠ cW0 := by
  have hsome := (c2_getConnection_selection mW 0).2.1 cW1 (by decide)
  have hrr := (c2_getConnection_selection mW 0).2.2 (by decide)
    (by decide) (by decide)
  exact ⟨⟨by decide, hsome.2.1, hsome.1⟩, by decide, by decide⟩

/-! ### C1: the send-and-await lifecycle -/

/-- When no pooled connection is connected, `getConnection` returns no
connection and leaves the manager untouched (the cursor is only written
in the round-robin branch). -/
theorem getConnection_eq_none (m : UsageFlowSocketManager)
    (h : ∀ c ∈ m.connections, c.connected = false) :
    getConnection m = (none, m) := by
  unfold getConnection
  split
  · rfl
  · next hEmpty =>
    split
    · rfl
    · next c0 rest hFilter =>
      exfalso
      have hc0 : c0 ∈ m.connections.filter (fun c => c.connected) := by
        rw [hFilter]; exact List.mem_cons_self _ _
      have hmem := List.mem_filter.mp hc0
      have := h c0 hmem.1
      rw [this] at hmem
      simpa using hmem.2

/-- C1: if no connected connection exists, `SendAsync` fails immediately
with the "not connected" error and changes no state; otherwise, on a
connection selected by `getConnection` (which is then live) and a fresh
correlation ID, `asyncSend` registers a waiter under the ID and
increments the pending count, and — whether the outcome is a delivered
reply, a write error, or a timeout — runs its cleanup exactly once, so
that the final pending count and handler table equal the initial ones
and the caller sees the outcome's result. -/
theorem c1_sendAsync_lifecycle (m : UsageFlowSocketManager)
    (conn : PooledConnection) (m' : UsageFlowSocketManager)
    (id : String) (outcome : SendOutcome) :
    ((∀ c ∈ m.connections, c.connected = false) →
      SendAsync m id outcome = (Except.error SendError.notConnected, m)) ∧
    (getConnection m = (some conn, m') → conn.wsNil = false →
      id ∉ conn.messageHandlers →
      ((registerWaiter conn id).pendingRequests = conn.pendingRequests + 1 ∧
       id ∈ (registerWaiter conn id).messageHandlers ∧
       (asyncSend conn id outcome).2.pendingRequests =
         conn.pendingRequests ∧
       (asyncSend conn id outcome).2.messageHandlers =
         conn.messageHandlers ∧
       (∀ r, outcome = SendOutcome.delivered r →
         (asyncSend conn id outcome).1 = Except.ok r) ∧
       (outcome = SendOutcome.writeError →
         (asyncSend conn id outcome).1 =
           Except.error SendError.writeFailed) ∧
       (outcome = SendOutcome.timeout →
         (asyncSend conn id outcome).1 =
           Except.error SendError.requestTimeout))) := by
  constructor
  · intro h
    unfold SendAsync
    rw [getConnection_eq_none m h]
  · intro hget hws hid
    have hconn : conn.connected = true :=
      (getConnection_some_spec m conn (by rw [hget])).2.1
    refine ⟨rfl, Finset.mem_insert_self _ _, ?_, ?_, ?_, ?_, ?_⟩
    · cases outcome <;>
        simp [asyncSend, hconn, hws, cleanupWaiter, registerWaiter,
          removeHandler]
    · cases outcome <;>
        simp [asyncSend, hconn, hws, cleanupWaiter, registerWaiter,
          removeHandler, Finset.erase_insert hid,
          Finset.erase_eq_of_not_mem hid]
    · rintro r rfl
      simp [asyncSend, hconn, hws]
    · rintro rfl
      simp [asyncSend, hconn, hws]
    · rintro rfl
      simp [asyncSend, hconn, hws]

/-- A manager whose single pooled connection is dead. -/
def cDead : PooledConnection :=
  ⟨false, 0, 0, false, false, ∅⟩

def mNoConn : UsageFlowSocketManager :=
  ⟨[cDead], defaultWSURL, 10, 0, false, "key"⟩

theorem c1_witness :
    SendAsync mNoConn "id1" SendOutcome.timeout =
      (Except.error SendError.notConnected, mNoConn) ∧
    (asyncSend cW1 "id1" SendOutcome.timeout).2.pendingRequests =
      cW1.pendingRequests ∧
    (asyncSend cW1 "id1" SendOutcome.timeout).2.messageHandlers =
      cW1.messageHandlers := by
  have h1 := (c1_sendAsync_lifecycle mNoConn cW1 mNoConn "id1"
    SendOutcome.timeout).1 (by decide)
  have h2 := (c1_sendAsync_lifecycle mW cW1 (getConnection mW).2 "id1"
    SendOutcome.timeout).2 (by decide) (by decide) (by decide)
  exact ⟨h1, h2.2.2.1, h2.2.2.2.1⟩

/-! ### C6: what crosses the caller boundary -/

/-- C6, amended: every completed `asyncSend` returns exactly one of a
reply with no error, or an error value; but a delivered reply carrying a
non-empty `error` field is still returned as a success — surfacing the
remote error text is left to the caller — and a frame-write failure
escapes as its own send error, distinct from the timeout and
no-connection errors. -/
theorem c6_outcome_boundary (conn : PooledConnection) (id : String)
    (r : UsageFlowSocketResponse) (outcome : SendOutcome)
    (hc : conn.connected = true) (hw : conn.wsNil = false) :
    ((∃ r0, (asyncSend conn id outcome).1 = Except.ok r0) ↔
      ¬∃ e, (asyncSend conn id outcome).1 = Except.error e) ∧
    (asyncSend conn id (SendOutcome.delivered r)).1 = Except.ok r ∧
    (asyncSend conn id SendOutcome.writeError).1 =
      Except.error SendError.writeFailed ∧
    SendError.writeFailed ≠ SendError.requestTimeout ∧
    SendError.writeFailed ≠ SendError.notConnected := by
  refine ⟨?_, by simp [asyncSend, hc, hw], by simp [asyncSend, hc, hw],
    by simp, by simp⟩
  constructor
  · rintro ⟨r0, hr0⟩ ⟨e, he⟩
    rw [hr0] at he
    exact Except.noConfusion he
  · intro hne
    cases hres : (asyncSend conn id outcome).1 with
    | ok r0 => exact ⟨r0, rfl⟩
    | error e => exact absurd ⟨e, rfl⟩ (hres ▸ hne)

/-- A well-formed reply whose `error` field is non-empty. -/
def respBoom : UsageFlowSocketResponse :=
  ⟨"response", "", "id1", "id1", "", "boom"⟩

/-- C6 counterexample: a delivered reply with `error = "boom"` is
returned by `asyncSend` as a SUCCESS `(reply, nil)`, not as a failed
call; and a write failure escapes to the caller as a send error that is
neither the timeout nor the no-connection error. -/
theorem c6_counterexample :
    respBoom.error ≠ "" ∧
    (asyncSend cW0 "id1" (SendOutcome.delivered respBoom)).1 =
      Except.ok respBoom ∧
    (asyncSend cW0 "id1" SendOutcome.writeError).1 =
      Except.error SendError.writeFailed ∧
    SendError.writeFailed ≠ SendError.requestTimeout ∧
    SendError.writeFailed ≠ SendError.notConnected :=
  ⟨by decide, rfl, rfl, by decide, by decide⟩

theorem c6_witness :
    (asyncSend cW0 "id2" (SendOutcome.delivered respBoom)).1 =
      Except.ok respBoom ∧
    (asyncSend cW0 "id2" SendOutcome.writeError).1 =
      Except.error SendError.writeFailed :=
  ⟨(c6_outcome_boundary cW0 "id2" respBoom SendOutcome.timeout
      (by decide) (by decide)).2.1,
   (c6_outcome_boundary cW0 "id2" respBoom SendOutcome.timeout
      (by decide) (by decide)).2.2.1⟩

/-! ### C3, C4: the connection-level transition system

The atomic critical sections of the Go code that touch one connection's
handler table, pending counter or liveness flag are collected in a step
relation.  `activeCalls` is a ghost field: the set of correlation IDs of
`asyncSend` calls that have registered their waiter and not yet run
their `cleanup` closure; it records which cleanups are still pending and
does not influence the connection state.  Freshness of generated IDs
(randomness + timestamp + random counter) is reflected by the `register`
side condition. -/

structure ConnSystem where
  conn : PooledConnection
  activeCalls : Finset String
deriving DecidableEq

inductive ConnStep : ConnSystem → ConnSystem → Prop where
  | register (s : ConnSystem) (id : String) (h : id ∉ s.activeCalls) :
      ConnStep s ⟨registerWaiter s.conn id, insert id s.activeCalls⟩
  | deliver (s : ConnSystem) (id : String) :
      ConnStep s ⟨removeHandler s.conn id, s.activeCalls⟩
  | cleanup (s : ConnSystem) (id : String) (h : id ∈ s.activeCalls) :
      ConnStep s ⟨cleanupWaiter s.conn id, s.activeCalls.erase id⟩
  | disconnectClear (s : ConnSystem) :
      ConnStep s ⟨clearHandlers s.conn, s.activeCalls⟩
  | pingFail (s : ConnSystem) :
      ConnStep s ⟨markDisconnected s.conn, s.activeCalls⟩

/-- A freshly created connection (`createConnection`): connected, no
pending requests, empty handler table, no pending cleanups. -/
def initSystem (index : Nat) : ConnSystem :=
  ⟨⟨true, 0, index, false, false, ∅⟩, ∅⟩

def ConnReachable (s s' : ConnSystem) : Prop :=
  Relation.ReflTransGen ConnStep s s'

/-- The inductive invariant: the handler table's keys are a subset of the
calls whose cleanup is still pending, and the pending counter counts
exactly those calls. -/
def SysInv (s : ConnSystem) : Prop :=
  s.conn.messageHandlers ⊆ s.activeCalls ∧
  s.conn.pendingRequests = (s.activeCalls.card : Int)

theorem sysInv_init (index : Nat) : SysInv (initSystem index) := by
  constructor <;> simp [initSystem]

theorem sysInv_step {s s' : ConnSystem} (hs : SysInv s)
    (h : ConnStep s s') : SysInv s' := by
  obtain ⟨hsub, hcard⟩ := hs
  cases h with
  | register id hid =>
    refine ⟨?_, ?_⟩
    · exact Finset.insert_subset_insert _ hsub
    · show (registerWaiter s.conn id).pendingRequests = _
      rw [registerWaiter]
      simp only
      rw [Finset.card_insert_of_not_mem hid, hcard]
      push_cast
      ring
  | deliver id =>
    exact ⟨(Finset.erase_subset _ _).trans hsub, hcard⟩
  | cleanup id hid =>
    refine ⟨Finset.erase_subset_erase _ hsub, ?_⟩
    show (cleanupWaiter s.conn id).pendingRequests = _
    rw [cleanupWaiter]
    simp only
    rw [Finset.card_erase_of_mem hid, hcard]
    have hpos : 1 ≤ s.activeCalls.card := Finset.card_pos.mpr ⟨id, hid⟩
    push_cast [hpos]
    ring
  | disconnectClear =>
    exact ⟨Finset.empty_subset _, hcard⟩
  | pingFail =>
    exact ⟨hsub, hcard⟩

theorem sysInv_reachable {s : ConnSystem} {index : Nat}
    (h : ConnReachable (initSystem index) s) : SysInv s := by
  induction h with
  | refl => exact sysInv_init index
  | tail _ hstep ih => exact sysInv_step ih hstep

/-- C3, amended: in every reachable state the pending counter is an
upper bound on the number of handler-table entries; the two can diverge
transiently because reply delivery in the read loop and disconnect
clearing remove handler entries WITHOUT decrementing the counter — the
decrement happens only in the owning `asyncSend`'s cleanup. -/
theorem c3_pending_bounds_handlers (index : Nat) (s : ConnSystem)
    (h : ConnReachable (initSystem index) s) :
    (s.conn.messageHandlers.card : Int) ≤ s.conn.pendingRequests := by
  obtain ⟨hsub, hcard⟩ := sysInv_reachable h
  rw [hcard]
  exact_mod_cast Finset.card_le_card hsub

/-- C3 counterexample: register a waiter for ID "a" (counter 1, one
handler entry), then let the read loop deliver the matching reply — the
delivery removes the handler entry but does not decrement the counter,
so the reachable intermediate state (before the caller's cleanup) has
`pendingRequests = 1` and an empty handler table. -/
theorem c3_counterexample :
    ConnReachable (initSystem 0)
      ⟨removeHandler (registerWaiter (initSystem 0).conn "a") "a",
        insert "a" (initSystem 0).activeCalls⟩ ∧
    (removeHandler (registerWaiter
        (initSystem 0).conn "a") "a").pendingRequests ≠
      ((removeHandler (registerWaiter
        (initSystem 0).conn "a") "a").messageHandlers.card : Int) := by
  constructor
  · exact Relation.ReflTransGen.tail
      (Relation.ReflTransGen.single
        (ConnStep.register (initSystem 0) "a" (by decide)))
      (ConnStep.deliver
        ⟨registerWaiter (initSystem 0).conn "a",
          insert "a" (initSystem 0).activeCalls⟩ "a")
  · decide

theorem c3_witness :
    ((initSystem 0).conn.messageHandlers.card : Int) ≤
      (initSystem 0).conn.pendingRequests :=
  c3_pending_bounds_handlers 0 (initSystem 0) Relation.ReflTransGen.refl

/-- C4, amended: the read-loop exit path and the reconnect path clear
the handler table atomically with marking the connection dead, and no
send path ever uses a disconnected connection — but a failed heartbeat
ping only marks the connection dead, leaving its handler table in place
until the read loop exits. -/
theorem c4_disconnected_not_selected (m : UsageFlowSocketManager)
    (conn c : PooledConnection) (id : String) (outcome : SendOutcome)
    (writeOK : Bool) :
    ((clearHandlers conn).connected = false ∧
      (clearHandlers conn).messageHandlers = ∅) ∧
    ((markDisconnected conn).connected = false ∧
      (markDisconnected conn).messageHandlers = conn.messageHandlers) ∧
    ((getConnection m).1 = some c → c.connected = true) ∧
    (conn.connected = false →
      asyncSend conn id outcome =
        (Except.error SendError.notConnected, conn)) ∧
    (conn.connected = false →
      sendOnConnection conn writeOK =
        Except.error SendError.notConnected) := by
  refine ⟨⟨rfl, rfl⟩, ⟨rfl, rfl⟩, ?_, ?_, ?_⟩
  · intro h
    exact (getConnection_some_spec m c h).2.1
  · intro h
    simp [asyncSend, h]
  · intro h
    simp [sendOnConnection, h]

/-- C4 counterexample: with a waiter registered for "a", a failed ping
write marks the connection disconnected but its handler table stays
non-empty — the table is NOT cleared atomically when a heartbeat write
failure is detected. -/
theorem c4_counterexample :
    ConnReachable (initSystem 0)
      ⟨markDisconnected (registerWaiter (initSystem 0).conn "a"),
        insert "a" (initSystem 0).activeCalls⟩ ∧
    (markDisconnected (registerWaiter
        (initSystem 0).conn "a")).connected = false ∧
    (markDisconnected (registerWaiter
        (initSystem 0).conn "a")).messageHandlers ≠ ∅ := by
  refine ⟨?_, by decide, by decide⟩
  exact Relation.ReflTransGen.tail
    (Relation.ReflTransGen.single
      (ConnStep.register (initSystem 0) "a" (by decide)))
    (ConnStep.pingFail
      ⟨registerWaiter (initSystem 0).conn "a",
        insert "a" (initSystem 0).activeCalls⟩)

theorem c4_witness :
    (clearHandlers cDead).messageHandlers = ∅ ∧
    cW1.connected = true ∧
    asyncSend cDead "id1" SendOutcome.timeout =
      (Except.error SendError.notConnected, cDead) := by
  have h := c4_disconnected_not_selected mW cDead cW1 "id1"
    SendOutcome.timeout true
  exact ⟨h.1.2, h.2.2.1 (by decide), h.2.2.2.1 (by decide)⟩

/-! ### C5: matching inbound frames to waiters (`handleMessages`) -/

/-- The correlation key the read loop looks up: the frame's own `id`
when non-empty, else its `replyTo` when non-empty, else nothing. -/
def matchKey (r : UsageFlowSocketResponse) : Option String :=
  if r.id ≠ "" then some r.id
  else if r.replyTo ≠ "" then some r.replyTo
  else none

/-- One inbound frame processed by the read loop: look up the key, and
when a waiter is registered under it, remove it from the handler table
and deliver the frame to it (the returned pair names the filled waiter);
otherwise the frame is dropped and the state is unchanged. -/
def processFrame (conn : PooledConnection) (r : UsageFlowSocketResponse) :
    PooledConnection × Option (String × UsageFlowSocketResponse) :=
  match matchKey r with
  | none => (conn, none)
  | some k =>
      if k ∈ conn.messageHandlers then (removeHandler conn k, some (k, r))
      else (conn, none)

/-- C5: a frame is matched first by its own `id`, else (when the `id` is
empty) by `replyTo`; a matched waiter is removed from the handler table
in the very state in which it is filled; a frame matching no registered
waiter is silently discarded, leaving the state unchanged and raising no
error. -/
theorem c5_frame_matching (conn : PooledConnection)
    (r : UsageFlowSocketResponse) (k : String) :
    (r.id ≠ "" → matchKey r = some r.id) ∧
    (r.id = "" → r.replyTo ≠ "" → matchKey r = some r.replyTo) ∧
    (r.id = "" → r.replyTo = "" → processFrame conn r = (conn, none)) ∧
    (matchKey r = some k → k ∈ conn.messageHandlers →
      processFrame conn r = (removeHandler conn k, some (k, r)) ∧
        k ∉ (removeHandler conn k).messageHandlers) ∧
    (matchKey r = some k → k ∉ conn.messageHandlers →
      processFrame conn r = (conn, none)) := by
  refine ⟨?_, ?_, ?_, ?_, ?_⟩
  · intro h
    simp [matchKey, h]
  · intro h1 h2
    simp [matchKey, h1, h2]
  · intro h1 h2
    simp [processFrame, matchKey, h1, h2]
  · intro hk hmem
    exact ⟨by simp [processFrame, hk, hmem],
      by simp [removeHandler, Finset.not_mem_erase]⟩
  · intro hk hmem
    simp [processFrame, hk, hmem]

/-- A connection with a waiter registered under "a". -/
def cWithHandler : PooledConnection :=
  ⟨true, 1, 0, false, false, insert "a" ∅⟩

def respToA : UsageFlowSocketResponse :=
  ⟨"response", "", "a", "", "", ""⟩

theorem c5_witness :
    processFrame cWithHandler respToA =
      (removeHandler cWithHandler "a", some ("a", respToA)) ∧
    processFrame cW0 respToA = (cW0, none) := by
  have h1 := (c5_frame_matching cWithHandler respToA "a").2.2.2.1
    (by decide) (by decide)
  have h2 := (c5_frame_matching cW0 respToA "a").2.2.2.2
    (by decide) (by decide)
  exact ⟨h1.1, h2⟩

/-! ### C7: reconnect backoff schedule -/

/-- The backoff computed by `reconnectConnectionWithRetry`:
`reconnectDelay * 2^attempt`, capped at 60 seconds. -/
def reconnectBackoff (attempt : Nat) : Nat :=
  if reconnectDelaySec * 2 ^ attempt > 60 then 60
  else reconnectDelaySec * 2 ^ attempt

/-- The schedule of `reconnectConnectionWithRetry` as a function of the
dial oracle: starting at `attempt`, it gives up at once when the attempt
counter has reached `maxReconnectTries`; a successful dial stops the
recursion with success; a failed dial schedules a retry after
`reconnectBackoff attempt` and recurses with `attempt + 1`.  The first
component lists, for every failed dial, the pair
(failed attempt number, scheduled delay in seconds); the second reports
whether a dial eventually succeeded. -/
def reconnectTrace (dial : Nat → Bool) (attempt : Nat) :
    List (Nat × Nat) × Bool :=
  if attempt ≥ maxReconnectTries then ([], false)
  else if dial attempt then ([], true)
  else
    ((attempt, reconnectBackoff attempt) ::
        (reconnectTrace dial (attempt + 1)).1,
      (reconnectTrace dial (attempt + 1)).2)
termination_by maxReconnectTries - attempt
decreasing_by all_goals omega

/-- C7: with every dial failing, the reconnect sequence started at
attempt 0 makes exactly the five dials 0..4, schedules each retry after
`base * 2^n` seconds capped at 60 (5, 10, 20, 40, 60), and ends
unconnected; the backoff after failed attempt `n` is
`min (5 * 2^n) 60`; and once the attempt counter reaches
`maxReconnectTries` no dial is attempted at all, for any oracle. -/
theorem c7_reconnect_schedule (dial : Nat → Bool)
    (hfail : ∀ n, dial n = false) :
    reconnectTrace dial 0 =
      ([(0, 5), (1, 10), (2, 20), (3, 40), (4, 60)], false) ∧
    (∀ n, reconnectBackoff n = min (reconnectDelaySec * 2 ^ n) 60) ∧
    (∀ d : Nat → Bool, reconnectTrace d maxReconnectTries = ([], false)) := by
  refine ⟨?_, ?_, ?_⟩
  · simp [reconnectTrace, hfail, reconnectBackoff, reconnectDelaySec,
      maxReconnectTries]
  · intro n
    unfold reconnectBackoff
    rcases le_or_lt (reconnectDelaySec * 2 ^ n) 60 with h | h
    · rw [if_neg (by omega), Nat.min_eq_left h]
    · rw [if_pos (by omega), Nat.min_eq_right (by omega)]
  · intro d
    unfold reconnectTrace
    simp [maxReconnectTries]

theorem c7_witness :
    reconnectTrace (fun _ => false) 0 =
      ([(0, 5), (1, 10), (2, 20), (3, 40), (4, 60)], false) :=
  (c7_reconnect_schedule (fun _ => false) (fun _ => rfl)).1

/-! ### C8: Connect — parallel pool initialization -/

/-- The connection `createConnection` builds for slot `index` when its
dial succeeds: connected, zero pending requests, empty handler table.
Whether the dial succeeds is the environment's decision, a parameter of
`Connect` below. -/
def createConnection (index : Nat) : PooledConnection :=
  ⟨true, 0, index, false, false, ∅⟩

/-- The inner `for j` loop of Connect's index sort for a fixed outer
position: thread the current front element through the suffix, swapping
whenever a smaller index is found (`successful[i].index >
successful[j].index`).  Returns the element left at the outer position
(the minimum) together with the arrangement the swaps leave behind it. -/
def bubbleMin (x : PooledConnection) (l : List PooledConnection) :
    PooledConnection × List PooledConnection :=
  match l with
  | [] => (x, [])
  | y :: ys =>
    if x.index > y.index then
      ((bubbleMin y ys).1, x :: (bubbleMin y ys).2)
    else
      ((bubbleMin x ys).1, y :: (bubbleMin x ys).2)

theorem bubbleMin_length (x : PooledConnection) (l : List PooledConnection) :
    (bubbleMin x l).2.length = l.length := by
  induction l generalizing x with
  | nil => rfl
  | cons y ys ih =>
    unfold bubbleMin
    split <;> simp [ih]

/-- The double loop
`for i ...: for j > i ...: if a[i].index > a[j].index swap` of `Connect`,
as structural recursion: fix the minimum at the front, recurse on the
rest. -/
def sortByIndex : List PooledConnection → List PooledConnection
  | [] => []
  | x :: xs => (bubbleMin x xs).1 :: sortByIndex (bubbleMin x xs).2
termination_by l => l.length
decreasing_by simp [bubbleMin_length]

theorem sortByIndex_nil : sortByIndex [] = [] := by
  rw [sortByIndex]

theorem sortByIndex_cons (x : PooledConnection) (xs : List PooledConnection) :
    sortByIndex (x :: xs) =
      (bubbleMin x xs).1 :: sortByIndex (bubbleMin x xs).2 := by
  rw [sortByIndex]

theorem bubbleMin_perm (x : PooledConnection) (l : List PooledConnection) :
    ((bubbleMin x l).1 :: (bubbleMin x l).2).Perm (x :: l) := by
  induction l generalizing x with
  | nil => exact List.Perm.refl _
  | cons y ys ih =>
    unfold bubbleMin
    split
    · exact (List.Perm.swap x (bubbleMin y ys).1 (bubbleMin y ys).2).trans
        ((ih y).cons x)
    · exact (List.Perm.swap y (bubbleMin x ys).1 (bubbleMin x ys).2).trans
        (((ih x).cons y).trans (List.Perm.swap x y ys))

theorem bubbleMin_min (x : PooledConnection) (l : List PooledConnection) :
    (bubbleMin x l).1.index ≤ x.index ∧
    ∀ c ∈ (bubbleMin x l).2, (bubbleMin x l).1.index ≤ c.index := by
  induction l generalizing x with
  | nil => exact ⟨le_refl _, by simp [bubbleMin]⟩
  | cons y ys ih =>
    unfold bubbleMin
    split
    · next hgt =>
      obtain ⟨h1, h2⟩ := ih y
      refine ⟨le_trans h1 (by omega), ?_⟩
      intro c hc
      rcases List.mem_cons.mp hc with rfl | hc
      · exact le_trans h1 (by omega)
      · exact h2 c hc
    · next hle =>
      obtain ⟨h1, h2⟩ := ih x
      refine ⟨h1, ?_⟩
      intro c hc
      rcases List.mem_cons.mp hc with rfl | hc
      · exact le_trans h1 (by omega)
      · exact h2 c hc

theorem sortByIndex_perm_aux (n : Nat) :
    ∀ l : List PooledConnection, l.length ≤ n → (sortByIndex l).Perm l := by
  induction n with
  | zero =>
    intro l hl
    have : l = [] := List.length_eq_zero.mp (Nat.le_zero.mp hl)
    subst this
    rw [sortByIndex_nil]
  | succ n ih =>
    intro l hl
    match l with
    | [] => rw [sortByIndex_nil]
    | x :: xs =>
      rw [sortByIndex_cons]
      have hlen : (bubbleMin x xs).2.length ≤ n := by
        rw [bubbleMin_length]
        simpa using hl
      exact ((ih _ hlen).cons _).trans (bubbleMin_perm x xs)

theorem sortByIndex_perm (l : List PooledConnection) :
    (sortByIndex l).Perm l :=
  sortByIndex_perm_aux l.length l (le_refl _)

theorem sortByIndex_pairwise_aux (n : Nat) :
    ∀ l : List PooledConnection, l.length ≤ n →
      (sortByIndex l).Pairwise (fun a b => a.index ≤ b.index) := by
  induction n with
  | zero =>
    intro l hl
    have : l = [] := List.length_eq_zero.mp (Nat.le_zero.mp hl)
    subst this
    simp [sortByIndex_nil]
  | succ n ih =>
    intro l hl
    match l with
    | [] => simp [sortByIndex_nil]
    | x :: xs =>
      rw [sortByIndex_cons]
      have hlen : (bubbleMin x xs).2.length ≤ n := by
        rw [bubbleMin_length]
        simpa using hl
      refine List.pairwise_cons.mpr ⟨?_, ih _ hlen⟩
      intro c hc
      have hc' : c ∈ (bubbleMin x xs).2 :=
        (sortByIndex_perm (bubbleMin x xs).2).subset hc
      exact (bubbleMin_min x xs).2 c hc'

theorem sortByIndex_pairwise (l : List PooledConnection) :
    (sortByIndex l).Pairwise (fun a b => a.index ≤ b.index) :=
  sortByIndex_pairwise_aux l.length l (le_refl _)

/-- `Connect`: attempts to dial every slot `0 .. poolSize-1` in
parallel.  `dialOK` gives each slot's dial result; `arrival` is the
order in which the per-slot goroutines' results are collected from the
results channel — any permutation of the slot indices.  The successful
connections are sorted by index and installed as the pool; every failed
index is handed to the background reconnector (returned as the retry
list) and the call itself succeeds.  The guard structure (missing API
key, concurrent `connecting`, already-connected pool) mirrors the Go
code. -/
def Connect (m : UsageFlowSocketManager) (dialOK : Nat → Bool)
    (arrival : List Nat) :
    Except String (UsageFlowSocketManager × List Nat) :=
  if m.apiKey = "" then Except.error "API key not available"
  else if m.connecting = true then Except.ok (m, [])
  else if m.connections ≠ [] ∧ IsConnected m = true then Except.ok (m, [])
  else
    Except.ok
      ({ m with connections :=
          sortByIndex ((arrival.filter dialOK).map createConnection) },
        arrival.filter (fun i => !dialOK i))

/-- The pool a fully collected first round installs: the successfully
dialed slots of `0 .. N-1`, in index order. -/
def connectResultPool (N : Nat) (dialOK : Nat → Bool) :
    List PooledConnection :=
  ((List.range N).filter dialOK).map createConnection

/-- C8: a fresh `Connect` with a non-empty API key succeeds no matter
how many dials fail; the pool it installs consists of exactly the
successfully dialed slots ordered by index, and the retry list handed to
the background reconnector is exactly the set of failed slots. -/
theorem c8_connect_first_round (m : UsageFlowSocketManager)
    (dialOK : Nat → Bool) (arrival : List Nat)
    (hkey : ¬m.apiKey = "") (hconn : m.connecting = false)
    (hfresh : m.connections = [])
    (harr : arrival.Perm (List.range m.poolSize.toNat)) :
    Connect m dialOK arrival =
      Except.ok ({ m with connections := connectResultPool m.poolSize.toNat dialOK },
        arrival.filter (fun i => !dialOK i)) ∧
    (arrival.filter (fun i => !dialOK i)).Perm
      ((List.range m.poolSize.toNat).filter (fun i => !dialOK i)) := by
  have hsort : sortByIndex ((arrival.filter dialOK).map createConnection) =
      connectResultPool m.poolSize.toNat dialOK := by
    unfold connectResultPool
    have hpermST : (arrival.filter dialOK).Perm
        ((List.range m.poolSize.toNat).filter dialOK) := harr.filter dialOK
    have hpermA :
        (sortByIndex ((arrival.filter dialOK).map createConnection)).Perm
          (((List.range m.poolSize.toNat).filter dialOK).map
            createConnection) :=
      (sortByIndex_perm _).trans (hpermST.map createConnection)
    have hmapT :
        (((List.range m.poolSize.toNat).filter dialOK).map
            createConnection).map (fun c => c.index) =
          (List.range m.poolSize.toNat).filter dialOK := by
      rw [List.map_map]
      exact (List.map_congr_left (fun a _ => rfl)).trans (List.map_id _)
    have hsortedA :
        ((sortByIndex ((arrival.filter dialOK).map createConnection)).map
          (fun c => c.index)).Pairwise (· ≤ ·) :=
      List.pairwise_map.mpr (sortByIndex_pairwise _)
    have hsortedT :
        ((List.range m.poolSize.toNat).filter dialOK).Pairwise (· ≤ ·) :=
      ((List.pairwise_lt_range _).filter dialOK).imp le_of_lt
    have hpermIdx :
        ((sortByIndex ((arrival.filter dialOK).map createConnection)).map
          (fun c => c.index)).Perm
          ((List.range m.poolSize.toNat).filter dialOK) := by
      rw [← hmapT]
      exact hpermA.map _
    have hidx :
        (sortByIndex ((arrival.filter dialOK).map createConnection)).map
          (fun c => c.index) =
          (List.range m.poolSize.toNat).filter dialOK :=
      List.eq_of_perm_of_sorted hpermIdx hsortedA hsortedT
    have hElems : ∀ c ∈
        sortByIndex ((arrival.filter dialOK).map createConnection),
        createConnection c.index = c := by
      intro c hc
      have : c ∈ ((List.range m.poolSize.toNat).filter dialOK).map
          createConnection := hpermA.subset hc
      obtain ⟨i, _, rfl⟩ := List.mem_map.mp this
      rfl
    calc
      sortByIndex ((arrival.filter dialOK).map createConnection) =
          (sortByIndex ((arrival.filter dialOK).map createConnection)).map
            (fun c => createConnection c.index) := by
        conv_lhs => rw [← List.map_id
          (sortByIndex ((arrival.filter dialOK).map createConnection))]
        exact List.map_congr_left (fun c hc => (hElems c hc).symm)
      _ = ((sortByIndex ((arrival.filter dialOK).map
            createConnection)).map (fun c => c.index)).map
            createConnection := by
        rw [List.map_map]
        rfl
      _ = ((List.range m.poolSize.toNat).filter dialOK).map
            createConnection := by rw [hidx]
  constructor
  · unfold Connect
    rw [if_neg hkey, if_neg (by simp [hconn]),
      if_neg (by simp [hfresh]), hsort]
  · exact harr.filter _

/-- A fresh two-slot manager used to witness C8. -/
def m8 : UsageFlowSocketManager :=
  ⟨[], defaultWSURL, 2, 0, false, "key"⟩

theorem c8_witness :
    Connect m8 (fun i => decide (i = 0)) [1, 0] =
      Except.ok ({ m8 with connections := connectResultPool 2 (fun i => decide (i = 0)) }, [1]) ∧
    ([1] : List Nat).Perm [1] := by
  have h := c8_connect_first_round m8 (fun i => decide (i = 0)) [1, 0]
    (by decide) rfl rfl (by decide)
  exact ⟨h.1, h.2⟩

/-! ### C9: Close -/

/-- Per-connection shutdown performed by `Close`:
`if conn.ws != nil { conn.ws.Close() }; conn.connected = false`. -/
def closeConnection (c : PooledConnection) : PooledConnection :=
  { c with
      connected := false
      wsClosed := if c.wsNil = false then true else c.wsClosed }

/-- `Close`: closes every pooled connection and empties the pool.  The
first component is the manager afterwards; the second lists the final
states of the connections that were just closed (they are no longer
referenced by the pool). -/
def Close (m : UsageFlowSocketManager) :
    UsageFlowSocketManager × List PooledConnection :=
  ({ m with connections := [] }, m.connections.map closeConnection)

/-- C9: `Close` empties the pool, leaves `IsConnected` false, marks
every previously pooled connection disconnected and closes its live
transport; a second `Close` leaves exactly the state of the first and
closes nothing further — `Close` is idempotent. -/
theorem c9_close_idempotent (m : UsageFlowSocketManager) :
    (Close m).1.connections = [] ∧
    IsConnected (Close m).1 = false ∧
    (Close (Close m).1).1 = (Close m).1 ∧
    (Close (Close m).1).2 = [] ∧
    ∀ c ∈ (Close m).2, c.connected = false ∧
      (c.wsNil = false → c.wsClosed = true) := by
  refine ⟨rfl, rfl, rfl, rfl, ?_⟩
  intro c hc
  obtain ⟨c0, hc0, rfl⟩ := List.mem_map.mp hc
  refine ⟨rfl, ?_⟩
  intro h
  have h0 : c0.wsNil = false := h
  show (if c0.wsNil = false then true else c0.wsClosed) = true
  rw [if_pos h0]

theorem c9_witness :
    (Close mW).1.connections = [] ∧
    IsConnected (Close mW).1 = false ∧
    (Close (Close mW).1).1 = (Close mW).1 ∧
    (closeConnection cW0).connected = false := by
  have h := c9_close_idempotent mW
  have hc := h.2.2.2.2 (closeConnection cW0) (by decide)
  exact ⟨h.1, h.2.1, h.2.2.1, hc.1⟩

/-! ### C10: constructor pool size -/

/-- The pool-size computation of `NewUsageFlowSocketManager`:
`size := defaultPoolSize; if len(poolSize) > 0 && poolSize[0] > 0`
`{ size = poolSize[0] }` over the variadic argument list. -/
def computePoolSize (poolSize : List Int) : Int :=
  match poolSize with
  | [] => defaultPoolSize
  | p :: _ => if p > 0 then p else defaultPoolSize

/-- `NewUsageFlowSocketManager`: the manager record the constructor
builds (it then calls `Connect`, modelled separately). -/
def NewUsageFlowSocketManager (apiKey : String) (poolSize : List Int) :
    UsageFlowSocketManager :=
  { connections := []
    wsURL := defaultWSURL
    poolSize := computePoolSize poolSize
    currentIndex := 0
    connecting := false
    apiKey := apiKey }

/-- C10: the constructor sets the pool target size to the supplied value
when it is positive, and to the default 10 both when no size is supplied
and when the supplied size is zero or negative. -/
theorem c10_pool_size_default (apiKey : String) (s : Int)
    (rest : List Int) :
    (NewUsageFlowSocketManager apiKey []).poolSize = 10 ∧
    (0 < s → (NewUsageFlowSocketManager apiKey (s :: rest)).poolSize = s) ∧
    (s ≤ 0 →
      (NewUsageFlowSocketManager apiKey (s :: rest)).poolSize = 10) ∧
    (NewUsageFlowSocketManager apiKey []).apiKey = apiKey ∧
    (NewUsageFlowSocketManager apiKey []).wsURL = defaultWSURL := by
  refine ⟨rfl, ?_, ?_, rfl, rfl⟩
  · intro h
    show (if s > 0 then s else defaultPoolSize) = s
    rw [if_pos h]
  · intro h
    show (if s > 0 then s else defaultPoolSize) = 10
    rw [if_neg (by omega)]
    rfl

theorem c10_witness :
    (NewUsageFlowSocketManager "key" [5]).poolSize = 5 ∧
    (NewUsageFlowSocketManager "key" []).poolSize = 10 ∧
    (NewUsageFlowSocketManager "key" [0]).poolSize = 10 ∧
    (NewUsageFlowSocketManager "key" [-3]).poolSize = 10 :=
  ⟨(c10_pool_size_default "key" 5 []).2.1 (by decide),
   (c10_pool_size_default "key" 5 []).1,
   (c10_pool_size_default "key" 0 []).2.2.1 (by decide),
   (c10_pool_size_default "key" (-3) []).2.2.1 (by decide)⟩

end UsageFlow
